import Mathlib

/-!
Verification of the arrow-nav spatial-navigation script.

The development shallowly embeds the two modules of `arrow-nav.js`:
the directional candidate-selection algorithm (geometry over viewport
rectangles, direction filtering, candidate ranking, the focus-attempt
loop and the keyboard throttle) and the highlight animator (easing and
corner-radius clamping).  JavaScript numbers are modelled as real
numbers; `Math.atan2 y x` is modelled as `Complex.arg (x + y*I)`, which
has the same value and the same range `(-π, π]`.  The JavaScript
distinction between `null` and `undefined` matters for the key handler
(the `default` arm of `keyToAngle` falls through without a `return`,
producing `undefined`, and `undefined !== null` is `true`), so the
handler model carries an explicit three-valued `JSValue`.
-/

namespace ArrowNav

/-- Viewport rectangle as produced by `getBoundingClientRect`: stored as
`left`, `top`, `width`, `height` with the DOM guarantee that width and
height are non-negative; `right` and `bottom` are derived exactly as in
`DOMRect`. -/
structure Rect where
  left : ℝ
  top : ℝ
  width : ℝ
  height : ℝ
  width_nonneg : 0 ≤ width
  height_nonneg : 0 ≤ height

/-- Field access `DOMRect.right = left + width`. -/
def Rect.right (r : Rect) : ℝ := r.left + r.width

/-- Field access `DOMRect.bottom = top + height`. -/
def Rect.bottom (r : Rect) : ℝ := r.top + r.height

/-- A 2-D point, as in the `Point` typedef of the source. -/
structure Point where
  x : ℝ
  y : ℝ

/-- Function `getMiddle` from the source: the center of a rectangle,
`{x: rect.left + rect.width / 2, y: rect.top + rect.height / 2}`. -/
noncomputable def getMiddle (rect : Rect) : Point :=
  { x := rect.left + rect.width / 2, y := rect.top + rect.height / 2 }

/-- Function `Math.atan2 y x`, modelled as the argument of the complex number
`x + y*I` (same value, same range `(-π, π]`, and `atan2 0 0 = 0` matches
`arg 0 = 0`). -/
noncomputable def atan2 (y x : ℝ) : ℝ := Complex.arg (x + y * Complex.I)

/-- Function `getAngle` from the source: `Math.atan2(b.y - a.y, b.x - a.x)`. -/
noncomputable def getAngle (a b : Point) : ℝ := atan2 (b.y - a.y) (b.x - a.x)

/-- Function `getAngleDiff` from the source:
`Math.abs(Math.atan2(Math.sin(b - a), Math.cos(b - a)))`. -/
noncomputable def getAngleDiff (a b : ℝ) : ℝ :=
  |atan2 (Real.sin (b - a)) (Real.cos (b - a))|

/-- The record returned by `getRectDiff`. -/
structure RectRelation where
  distance : ℝ
  areAligned : Bool
  midAngle : ℝ
  minAngle : ℝ

open Classical in
/-- Function `getRectDiff` from the source, transcribed branch by branch:
overlap on both axes, vertical alignment (overlapping horizontal
spans), horizontal alignment (overlapping vertical spans), and the
unaligned fallback using the center-to-center `Math.hypot` distance. -/
noncomputable def getRectDiff (rectA rectB : Rect) : RectRelation :=
  let areAlignedVertically : Bool :=
    !(decide (rectA.right < rectB.left) || decide (rectA.left > rectB.right))
  let areAlignedHorizontally : Bool :=
    !(decide (rectA.bottom < rectB.top) || decide (rectA.top > rectB.bottom))
  let middleA := getMiddle rectA
  let middleB := getMiddle rectB
  let midAngle := getAngle middleA middleB
  if areAlignedVertically && areAlignedHorizontally then
    { distance := 0
      areAligned := true
      midAngle := midAngle
      minAngle := midAngle }
  else if areAlignedVertically then
    { distance := min |rectA.top - rectB.bottom| |rectA.bottom - rectB.top|
      areAligned := true
      midAngle := midAngle
      minAngle := if rectA.top < rectB.bottom then Real.pi / 2 else Real.pi * 3 / 2 }
  else if areAlignedHorizontally then
    { distance := min |rectA.left - rectB.right| |rectA.right - rectB.left|
      areAligned := true
      midAngle := midAngle
      minAngle := if rectA.left < rectB.right then 0 else Real.pi }
  else
    { distance := Real.sqrt ((middleA.x - middleB.x) ^ 2 + (middleA.y - middleB.y) ^ 2)
      areAligned := false
      midAngle := midAngle
      minAngle := midAngle }

/-! Basic facts about `getAngleDiff`. -/

theorem getAngleDiff_self (a : ℝ) : getAngleDiff a a = 0 := by
  have h1 : ((Real.cos (a - a) : ℝ) : ℂ) + (Real.sin (a - a) : ℝ) * Complex.I = 1 := by
    simp [sub_self]
  simp only [getAngleDiff, atan2]
  rw [h1, Complex.arg_one, abs_zero]

theorem getAngleDiff_symm (a b : ℝ) : getAngleDiff a b = getAngleDiff b a := by
  have hconj : ((Real.cos (a - b) : ℝ) : ℂ) + (Real.sin (a - b) : ℝ) * Complex.I =
      (starRingEnd ℂ) (((Real.cos (b - a) : ℝ) : ℂ) + (Real.sin (b - a) : ℝ) * Complex.I) := by
    have hab : a - b = -(b - a) := by ring
    rw [map_add, map_mul, Complex.conj_ofReal, Complex.conj_ofReal, Complex.conj_I,
      hab, Real.cos_neg, Real.sin_neg]
    push_cast
    ring
  simp only [getAngleDiff, atan2]
  rw [hconj, Complex.arg_conj]
  split
  · rename_i h
    rw [h]
  · rw [abs_neg]

theorem getAngleDiff_nonneg (a b : ℝ) : 0 ≤ getAngleDiff a b :=
  abs_nonneg _

theorem getAngleDiff_le_pi (a b : ℝ) : getAngleDiff a b ≤ Real.pi :=
  Complex.abs_arg_le_pi _

/-- C6. `angularDistance` (the source's `getAngleDiff`) is symmetric,
always lies in `[0, π]`, and vanishes on the diagonal. -/
theorem getAngleDiff_symm_range_diag (a b : ℝ) :
    getAngleDiff a b = getAngleDiff b a ∧
    getAngleDiff a b ∈ Set.Icc 0 Real.pi ∧
    getAngleDiff a a = 0 :=
  ⟨getAngleDiff_symm a b,
   ⟨getAngleDiff_nonneg a b, getAngleDiff_le_pi a b⟩,
   getAngleDiff_self a⟩

/-! Claim C5: overlap gives distance zero and alignment. -/

/-- C5. If two rectangles overlap on both axes then `getRectDiff`
reports `distance = 0` and `areAligned = true`; in particular this holds
for `getRectDiff r r` for every rectangle `r`. -/
theorem getRectDiff_overlap_zero (a b r : Rect)
    (h1 : ¬ a.right < b.left) (h2 : ¬ a.left > b.right)
    (h3 : ¬ a.bottom < b.top) (h4 : ¬ a.top > b.bottom) :
    ((getRectDiff a b).distance = 0 ∧ (getRectDiff a b).areAligned = true) ∧
    ((getRectDiff r r).distance = 0 ∧ (getRectDiff r r).areAligned = true) := by
  constructor
  · simp only [getRectDiff]
    rw [if_pos]
    · exact ⟨rfl, rfl⟩
    · simp [h1, h2, h3, h4]
  · have hr1 : ¬ r.right < r.left := by
      simp only [Rect.right, not_lt]
      linarith [r.width_nonneg]
    have hr2 : ¬ r.left > r.right := by
      simp only [Rect.right, gt_iff_lt, not_lt]
      linarith [r.width_nonneg]
    have hr3 : ¬ r.bottom < r.top := by
      simp only [Rect.bottom, not_lt]
      linarith [r.height_nonneg]
    have hr4 : ¬ r.top > r.bottom := by
      simp only [Rect.bottom, gt_iff_lt, not_lt]
      linarith [r.height_nonneg]
    simp only [getRectDiff]
    rw [if_pos]
    · exact ⟨rfl, rfl⟩
    · simp [hr1, hr2, hr3, hr4]

/-- Witness for C5 at concrete rectangles: `a = b = r` the unit square at
the origin. -/
theorem getRectDiff_overlap_zero_witness :
    ((getRectDiff ⟨0, 0, 1, 1, by norm_num, by norm_num⟩
        ⟨0, 0, 1, 1, by norm_num, by norm_num⟩).distance = 0 ∧
      (getRectDiff ⟨0, 0, 1, 1, by norm_num, by norm_num⟩
        ⟨0, 0, 1, 1, by norm_num, by norm_num⟩).areAligned = true) ∧
    ((getRectDiff ⟨0, 0, 1, 1, by norm_num, by norm_num⟩
        ⟨0, 0, 1, 1, by norm_num, by norm_num⟩).distance = 0 ∧
      (getRectDiff ⟨0, 0, 1, 1, by norm_num, by norm_num⟩
        ⟨0, 0, 1, 1, by norm_num, by norm_num⟩).areAligned = true) :=
  getRectDiff_overlap_zero _ _ _
    (by simp [Rect.right]) (by simp [Rect.right])
    (by simp [Rect.bottom]) (by simp [Rect.bottom])

/-! Claim C2: the direction filter. -/

open Classical in
/-- The direction filter of `moveFocus`: a candidate survives exactly
when `getAngleDiff(info.minAngle, moveAngle) <= Math.PI / 4`. -/
noncomputable def directionFilter (moveAngle : ℝ) (info : RectRelation) : Bool :=
  decide (getAngleDiff info.minAngle moveAngle ≤ Real.pi / 4)

theorem getAngleDiff_concrete_pi_half : getAngleDiff (Real.pi / 2) 0 = Real.pi / 2 := by
  have h : ((Real.cos ((0 : ℝ) - Real.pi / 2) : ℝ) : ℂ) +
      (Real.sin ((0 : ℝ) - Real.pi / 2) : ℝ) * Complex.I = -Complex.I := by
    rw [zero_sub, Real.cos_neg, Real.sin_neg, Real.cos_pi_div_two, Real.sin_pi_div_two]
    push_cast
    ring
  simp only [getAngleDiff, atan2]
  rw [h, Complex.arg_neg_I, abs_neg, abs_of_nonneg (by positivity)]

/-- C2. The filter discards exactly the candidates whose corrected
`minAngle` is more than `π/4` away from the requested direction; and a
candidate exactly above the reference (overlapping horizontal spans, no
vertical overlap, candidate strictly higher) always survives the filter
for direction Up (angle `3π/2`), because its corrected `minAngle` is
exactly `3π/2`. -/
theorem directionFilter_spec (rel : RectRelation) (moveAngle : ℝ) (a b : Rect)
    (h1 : ¬ a.right < b.left) (h2 : ¬ a.left > b.right) (h3 : b.bottom < a.top) :
    (directionFilter moveAngle rel = false ↔
      Real.pi / 4 < getAngleDiff rel.minAngle moveAngle) ∧
    directionFilter (Real.pi * 3 / 2) (getRectDiff a b) = true := by
  constructor
  · simp [directionFilter, not_le]
  · have hne : ¬ a.top < b.bottom := lt_asymm h3
    have e1 : decide (a.right < b.left) = false := decide_eq_false h1
    have e2 : decide (a.left > b.right) = false := decide_eq_false h2
    have e3 : decide (a.top > b.bottom) = true := decide_eq_true h3
    have hmin : (getRectDiff a b).minAngle = Real.pi * 3 / 2 := by
      simp only [getRectDiff, e1, e2, e3]
      simp [hne]
    simp only [directionFilter, hmin, getAngleDiff_self]
    simp
    positivity

/-- Witness for C2: reference square at `(0,100)`, candidate square
directly above at `(0,0)`, a dummy relation for the filter
characterisation. -/
theorem directionFilter_spec_witness :
    (directionFilter 0 (RectRelation.mk 0 true 0 0) = false ↔
      Real.pi / 4 < getAngleDiff (RectRelation.mk 0 true 0 0).minAngle 0) ∧
    directionFilter (Real.pi * 3 / 2)
      (getRectDiff ⟨0, 100, 10, 10, by norm_num, by norm_num⟩
        ⟨0, 0, 10, 10, by norm_num, by norm_num⟩) = true :=
  directionFilter_spec (RectRelation.mk 0 true 0 0) 0
    ⟨0, 100, 10, 10, by norm_num, by norm_num⟩
    ⟨0, 0, 10, 10, by norm_num, by norm_num⟩
    (by norm_num [Rect.right]) (by norm_num [Rect.right]) (by norm_num [Rect.bottom])

/-! Claim C1: the ranking comparator. -/

/-- The fields of a candidate record that the sort comparator of
`moveFocus` reads. -/
structure CandidateInfo where
  areAligned : Bool
  distance : ℝ
  midAngle : ℝ

open Classical in
/-- The sort comparator of `moveFocus`, transcribed literally.  Note the
last tie-break: the source computes
`const aAngle = getAngleDiff(a.midAngle, moveAngle)` and
`const bAngle = getAngleDiff(a.midAngle, moveAngle)` — both from
`a.midAngle` — so `aAngle` and `bAngle` are the same value. -/
noncomputable def sortCompare (moveAngle : ℝ) (a b : CandidateInfo) : ℤ :=
  if a.areAligned && !b.areAligned then -1
  else if !a.areAligned && b.areAligned then 1
  else if a.distance < b.distance then -1
  else if b.distance < a.distance then 1
  else
    let aAngle := getAngleDiff a.midAngle moveAngle
    let bAngle := getAngleDiff a.midAngle moveAngle
    if aAngle < bAngle then -1
    else if bAngle < aAngle then 1
    else 0

/-- C1 (bug evaluation).  Two aligned candidates at the same distance
whose midpoint angular distances to the requested direction differ
(`0` versus `π/2`) are reported equal by the comparator in both
argument orders: the angular tie-break of the comparator can never fire
because both sides of its comparison are computed from `a.midAngle`. -/
theorem sortCompare_angle_tiebreak_dead :
    getAngleDiff (0 : ℝ) 0 < getAngleDiff (Real.pi / 2) 0 ∧
    sortCompare 0 ⟨true, 5, Real.pi / 2⟩ ⟨true, 5, 0⟩ = 0 ∧
    sortCompare 0 ⟨true, 5, 0⟩ ⟨true, 5, Real.pi / 2⟩ = 0 := by
  refine ⟨?_, ?_, ?_⟩
  · rw [getAngleDiff_self, getAngleDiff_concrete_pi_half]
    positivity
  · simp [sortCompare]
  · simp [sortCompare]

/-! The key handler.

`keyToAngle` in the source maps the eight navigation keys to angles;
its `default` arm is the bare statement `null;` without `return`, so an
unmapped key yields `undefined`.  The keydown listener tests
`angle !== null`, and in JavaScript `undefined !== null` is `true`.
The model keeps the three JavaScript values apart. -/

/-- A JavaScript value as returned by `keyToAngle`: a number, `null`,
or `undefined`. -/
inductive JSValue where
  | vnull
  | vundefined
  | vnum (x : ℝ)

/-- The keys distinguished by the listeners: the eight navigation keys,
`Backspace`, and a representative of every other key. -/
inductive Key where
  | arrowUp
  | arrowDown
  | arrowLeft
  | arrowRight
  | w
  | a
  | s
  | d
  | backspace
  | other
  deriving DecidableEq

/-- Function `keyToAngle` from the source.  The `default` arm of the source's
`switch` evaluates `null;` without returning it, so the function yields
`undefined` (not `null`) for `Backspace` and every other unmapped
key. -/
noncomputable def keyToAngle : Key → JSValue
  | .arrowUp => .vnum (Real.pi * 3 / 2)
  | .arrowDown => .vnum (Real.pi / 2)
  | .arrowLeft => .vnum Real.pi
  | .arrowRight => .vnum 0
  | .w => .vnum (Real.pi * 3 / 2)
  | .s => .vnum (Real.pi / 2)
  | .a => .vnum Real.pi
  | .d => .vnum 0
  | .backspace => .vundefined
  | .other => .vundefined

/-- The keys the spec calls navigation keys. -/
def isNavKey : Key → Bool
  | .arrowUp | .arrowDown | .arrowLeft | .arrowRight
  | .w | .a | .s | .d => true
  | _ => false

/-- The observable outcome of one keydown dispatch: the new value of
`lastEventTime`, whether `moveFocus` was invoked, whether
`preventDefault` / `stopImmediatePropagation` ran, and whether
`history.back()` ran. -/
structure KeydownResult where
  newTime : ℤ
  invokedSelector : Bool
  preventedDefault : Bool
  stoppedPropagation : Bool
  historyBack : Bool

open Classical in
/-- The keydown listener from the source: `angle = keyToAngle(key)`;
if `angle !== null` run the throttled navigation branch and suppress the
event; else if the key is Backspace run `history.back()` and suppress
the event; else do nothing.  Times are milliseconds as integers. -/
noncomputable def keydownHandler (key : Key) (lastEventTime now : ℤ) : KeydownResult :=
  let angle := keyToAngle key
  if angle ≠ JSValue.vnull then
    if now - lastEventTime > 100 then
      { newTime := now, invokedSelector := true, preventedDefault := true,
        stoppedPropagation := true, historyBack := false }
    else
      { newTime := lastEventTime, invokedSelector := false, preventedDefault := true,
        stoppedPropagation := true, historyBack := false }
  else if key = Key.backspace then
    { newTime := lastEventTime, invokedSelector := false, preventedDefault := true,
      stoppedPropagation := true, historyBack := true }
  else
    { newTime := lastEventTime, invokedSelector := false, preventedDefault := false,
      stoppedPropagation := false, historyBack := false }

open Classical in
/-- The keyup listener from the source: for `angle !== null` it resets
`lastEventTime` to `0` and prevents default. -/
noncomputable def keyupHandler (key : Key) (lastEventTime : ℤ) : ℤ × Bool :=
  if keyToAngle key ≠ JSValue.vnull then (0, true) else (lastEventTime, false)

theorem keyToAngle_ne_vnull (k : Key) : keyToAngle k ≠ JSValue.vnull := by
  cases k <;> simp [keyToAngle]

/-- Because `keyToAngle` never returns `null`, every key takes the
navigation branch of the keydown listener. -/
theorem keydownHandler_eq (k : Key) (s t : ℤ) :
    keydownHandler k s t =
      if 100 < t - s then
        { newTime := t, invokedSelector := true, preventedDefault := true,
          stoppedPropagation := true, historyBack := false }
      else
        { newTime := s, invokedSelector := false, preventedDefault := true,
          stoppedPropagation := true, historyBack := false } := by
  simp only [keydownHandler]
  rw [if_pos (keyToAngle_ne_vnull k)]

/-- Process a chronological burst of keydown events (no keyup in
between), threading `lastEventTime` through the listener; record each
event's time and whether it invoked the selector. -/
noncomputable def processDowns (key : Key) : ℤ → List ℤ → List (ℤ × Bool)
  | _, [] => []
  | s, t :: ts =>
    let r := keydownHandler key s t
    (t, r.invokedSelector) :: processDowns key r.newTime ts

/-- The times of the accepted (unthrottled) navigations in a burst. -/
noncomputable def acceptedTimes (key : Key) (s : ℤ) (ts : List ℤ) : List ℤ :=
  ((processDowns key s ts).filter (fun p => p.2)).map (fun p => p.1)

theorem acceptedTimes_cons (k : Key) (s t : ℤ) (ts : List ℤ) :
    acceptedTimes k s (t :: ts) =
      if 100 < t - s then t :: acceptedTimes k t ts else acceptedTimes k s ts := by
  by_cases h : 100 < t - s
  · simp [acceptedTimes, processDowns, keydownHandler_eq, h]
  · simp [acceptedTimes, processDowns, keydownHandler_eq, h]

/-- Successive accepted navigations in a burst are always more than
100ms apart. -/
theorem acceptedTimes_gap (k : Key) (ts : List ℤ) :
    ∀ s a : ℤ, a ≤ s →
      List.Chain' (fun x y => 100 < y - x) (a :: acceptedTimes k s ts) := by
  induction ts with
  | nil =>
    intro s a _
    simp [acceptedTimes, processDowns]
  | cons t ts ih =>
    intro s a ha
    rw [acceptedTimes_cons]
    by_cases h : 100 < t - s
    · rw [if_pos h, List.chain'_cons]
      exact ⟨by omega, by
        have := ih t t le_rfl
        rcases hAcc : acceptedTimes k t ts with _ | ⟨u, us⟩
        · simp
        · rw [hAcc] at this
          exact (List.chain'_cons.mp this).2.cons (List.chain'_cons.mp this).1⟩
    · rw [if_neg h]
      exact ih s a ha

/-- C4.  For a navigation key: the keydown listener invokes the
selector exactly when more than 100ms elapsed since the last accepted
navigation, records the event time exactly when it invoked, and
suppresses the default handling either way; the keyup listener resets
the throttle timer to zero; in any chronicle of keydown events with no
intervening keyup, successive accepted navigations are more than 100ms
apart; and after a reset, a keydown at any realistic time (`100 < t`
milliseconds since the epoch) is accepted immediately. -/
theorem throttle_spec (k : Key) (hk : isNavKey k = true) (s t : ℤ) (ts : List ℤ) :
    ((keydownHandler k s t).invokedSelector = true ↔ 100 < t - s) ∧
    (keydownHandler k s t).newTime = (if 100 < t - s then t else s) ∧
    (keydownHandler k s t).preventedDefault = true ∧
    (keyupHandler k s).1 = 0 ∧
    List.Chain' (fun x y => 100 < y - x) (acceptedTimes k s ts) ∧
    (100 < t → (keydownHandler k 0 t).invokedSelector = true) := by
  have _ := hk
  refine ⟨?_, ?_, ?_, ?_, ?_, ?_⟩
  · by_cases h : 100 < t - s <;> simp [keydownHandler_eq, h]
  · by_cases h : 100 < t - s <;> simp [keydownHandler_eq, h]
  · by_cases h : 100 < t - s <;> simp [keydownHandler_eq, h]
  · simp [keyupHandler, keyToAngle_ne_vnull]
  · exact (acceptedTimes_gap k ts s (s - 101) (by omega)).tail
  · intro ht
    simp [keydownHandler_eq, sub_zero, ht]

/-- Witness for C4: an ArrowUp keydown 200ms after the last accepted
navigation at time 0 is accepted. -/
theorem throttle_spec_witness :
    (keydownHandler Key.arrowUp 0 200).invokedSelector = true :=
  (throttle_spec Key.arrowUp rfl 0 200 []).1.mpr (by norm_num)

/-- C9 (bug evaluation).  A Backspace keydown never reaches the
`history.back()` branch: since `keyToAngle` yields `undefined` (not
`null`) for Backspace, the `angle !== null` test is true and the
navigation branch runs instead — updating the throttle timer and even
invoking the selector — so `historyBack` is false whether or not the
event is throttled. -/
theorem backspace_no_history_back :
    (keydownHandler Key.backspace 0 200).historyBack = false ∧
    (keydownHandler Key.backspace 0 200).newTime = 200 ∧
    (keydownHandler Key.backspace 0 200).invokedSelector = true ∧
    (keydownHandler Key.backspace 150 200).historyBack = false := by
  refine ⟨?_, ?_, ?_, ?_⟩ <;>
    simp [keydownHandler_eq, (by norm_num : (100 : ℤ) < 200 - 0),
      (by norm_num : ¬ (100 : ℤ) < 200 - 150)]

/-- C10 (bug evaluation).  A keydown for an unmapped key is not a
no-op: `keyToAngle` yields `undefined`, `undefined !== null` is true,
so the handler suppresses the default handling, stops propagation,
updates the throttle timestamp and invokes the selector. -/
theorem unmapped_key_not_noop :
    (keydownHandler Key.other 0 200).preventedDefault = true ∧
    (keydownHandler Key.other 0 200).stoppedPropagation = true ∧
    (keydownHandler Key.other 0 200).newTime = 200 ∧
    (keydownHandler Key.other 0 200).invokedSelector = true := by
  refine ⟨?_, ?_, ?_, ?_⟩ <;>
    simp [keydownHandler_eq, (by norm_num : (100 : ℤ) < 200 - 0)]

/-! Claim C3: the focus attempt loop.

`moveFocus` ends with `elements.find(info => { info.element.focus(...);
return info.element === document.activeElement; })`.  The browser's
focus call is modelled by a predicate `canFocus`: a call on a focusable
element makes it the active element, a silently failing call leaves the
active element unchanged.  Elements are identified by naturals. -/

/-- Model of `element.focus()`: on success the element becomes active,
on silent failure the active element is unchanged. -/
def focusCall (canFocus : ℕ → Bool) (e : ℕ) (active : Option ℕ) : Option ℕ :=
  if canFocus e then some e else active

/-- The `elements.find` call of `moveFocus`: walk the ranked list,
call `focus()` on each element, and stop at the first whose focus call
made it the active element.  Returns the found element (if any) and the
final active element. -/
def focusLoop (canFocus : ℕ → Bool) : List ℕ → Option ℕ → Option ℕ × Option ℕ
  | [], active => (none, active)
  | e :: rest, active =>
    let active2 := focusCall canFocus e active
    if active2 = some e then (some e, active2)
    else focusLoop canFocus rest active2

/-- C3.  Starting from a focused element `c` that is not itself in the
ranked list (the selector filters it out), the loop focuses exactly the
first candidate in ranked order whose focus call succeeds, and if no
focus call succeeds the active element is unchanged. -/
theorem focusLoop_spec (canFocus : ℕ → Bool) (l : List ℕ) (c : ℕ)
    (hc : ∀ e ∈ l, e ≠ c) :
    focusLoop canFocus l (some c) =
      match l.find? canFocus with
      | some e => (some e, some e)
      | none => (none, some c) := by
  induction l with
  | nil => simp [focusLoop]
  | cons e rest ih =>
    have hne : ¬ ((some c : Option ℕ) = some e) := by
      simp only [Option.some.injEq]
      exact fun hce => (hc e (List.mem_cons_self e rest)) hce.symm
    by_cases h : canFocus e
    · rw [List.find?_cons_of_pos _ h]
      simp [focusLoop, focusCall, h]
    · rw [List.find?_cons_of_neg _ h]
      rw [show focusLoop canFocus (e :: rest) (some c) =
          focusLoop canFocus rest (some c) by simp [focusLoop, focusCall, h, hne]]
      exact ih fun x hx => hc x (List.mem_cons_of_mem e hx)

/-- Witness for C3: candidates `[1, 2, 3]` where only `2` accepts
focus, starting from focused element `0`. -/
theorem focusLoop_spec_witness :
    focusLoop (fun e => e == 2) [1, 2, 3] (some 0) = (some 2, some 2) :=
  (focusLoop_spec (fun e => e == 2) [1, 2, 3] 0 (by decide)).trans (by rfl)

/-! Claim C7: the animation interpolation factor. -/

/-- Function `easeOut` from the source: `1 - Math.pow(1 - t, 3)`. -/
noncomputable def easeOut (t : ℝ) : ℝ := 1 - (1 - t) ^ 3

/-- The interpolation factor computed each frame by `loop`:
`easeOut(Math.min(1, (Date.now() - targetChangeTime) / animationTime))`
with `animationTime = 300`. -/
noncomputable def lerpPos (now targetChangeTime : ℝ) : ℝ :=
  easeOut (min 1 ((now - targetChangeTime) / 300))

theorem cube_mono {u v : ℝ} (h : u ≤ v) : u ^ 3 ≤ v ^ 3 := by
  nlinarith [sq_nonneg (u + v), sq_nonneg u, sq_nonneg v, sq_nonneg (u - v)]

/-- C7.  The interpolation factor is `0` at the moment the transition
starts, exactly `1` for every time at least 300ms later, and
monotonically non-decreasing in the frame time. -/
theorem lerpPos_spec (start : ℝ) :
    lerpPos start start = 0 ∧
    (∀ now, start + 300 ≤ now → lerpPos now start = 1) ∧
    (∀ t1 t2, t1 ≤ t2 → lerpPos t1 start ≤ lerpPos t2 start) := by
  refine ⟨?_, ?_, ?_⟩
  · have h0 : min (1 : ℝ) ((start - start) / 300) = 0 := by norm_num
    rw [lerpPos, h0]
    norm_num [easeOut]
  · intro now h
    have h1 : (1 : ℝ) ≤ (now - start) / 300 := by
      rw [le_div_iff₀ (by norm_num)]
      linarith
    rw [lerpPos, min_eq_left h1]
    norm_num [easeOut]
  · intro t1 t2 h
    have hdiv : (t1 - start) / 300 ≤ (t2 - start) / 300 :=
      (div_le_div_iff_of_pos_right (by norm_num)).mpr (by linarith)
    have hmin : min 1 ((t1 - start) / 300) ≤ min 1 ((t2 - start) / 300) :=
      min_le_min le_rfl hdiv
    have hcube := cube_mono (by linarith :
      1 - min 1 ((t2 - start) / 300) ≤ 1 - min 1 ((t1 - start) / 300))
    simp only [lerpPos, easeOut]
    linarith

/-- Witness for C7: with the transition starting at time 0, the factor
is 0 at time 0 and 1 at time 400. -/
theorem lerpPos_spec_witness : lerpPos 0 0 = 0 ∧ lerpPos 400 0 = 1 :=
  ⟨(lerpPos_spec 0).1, (lerpPos_spec 0).2.1 400 (by norm_num)⟩

/-! Claim C8: the corner-radius clamp. -/

/-- The four corner radii returned by `getBorderRadius`. -/
structure BorderRadii where
  topLeft : ℝ
  topRight : ℝ
  bottomLeft : ℝ
  bottomRight : ℝ

/-- The inputs `getBorderRadius` reads from a non-null element: its
bounding-rect dimensions, its layout width (`offsetWidth`), and the
parsed computed-style radii. -/
structure StyledElement where
  rectWidth : ℝ
  rectHeight : ℝ
  offsetWidth : ℝ
  borderTopLeftRadius : ℝ
  borderTopRightRadius : ℝ
  borderBottomLeftRadius : ℝ
  borderBottomRightRadius : ℝ

/-- Function `getBorderRadius` from the source: all zeros for a null element;
otherwise each declared radius is scaled by `rect.width / offsetWidth`
and clamped from above by `max(rect.height, rect.width)`. -/
noncomputable def getBorderRadius : Option StyledElement → BorderRadii
  | none =>
    { topLeft := 0, topRight := 0, bottomLeft := 0, bottomRight := 0 }
  | some element =>
    let mx := max element.rectHeight element.rectWidth
    let scale := element.rectWidth / element.offsetWidth
    { topLeft := min mx (scale * element.borderTopLeftRadius)
      topRight := min mx (scale * element.borderTopRightRadius)
      bottomLeft := min mx (scale * element.borderBottomLeftRadius)
      bottomRight := min mx (scale * element.borderBottomRightRadius) }

/-- C8.  Each computed corner radius is at most
`max(renderedWidth, renderedHeight)` of the element's bounding rect —
whatever the declared radius — and a null element gets all-zero
radii. -/
theorem getBorderRadius_clamped (element : StyledElement) :
    (getBorderRadius (some element)).topLeft ≤ max element.rectWidth element.rectHeight ∧
    (getBorderRadius (some element)).topRight ≤ max element.rectWidth element.rectHeight ∧
    (getBorderRadius (some element)).bottomLeft ≤ max element.rectWidth element.rectHeight ∧
    (getBorderRadius (some element)).bottomRight ≤ max element.rectWidth element.rectHeight ∧
    getBorderRadius none =
      { topLeft := 0, topRight := 0, bottomLeft := 0, bottomRight := 0 } := by
  refine ⟨?_, ?_, ?_, ?_, rfl⟩ <;>
  · rw [max_comm element.rectWidth element.rectHeight]
    exact min_le_left _ _

end ArrowNav
